import Mathlib

/-!
Verification of the EaselJS display core (DisplayObject.js, Stage.js).

The repository source under verification is `src/src/easeljs/display/`.
Numeric values (coordinates, scales, alphas) are modelled as `Rat`; the
trigonometric functions needed by `Matrix2D.prependTransform` are passed in
as parameters `cosD sinD : Rat → Rat` (degrees in, value out), since the
math library is an external collaborator.  `Matrix2D`, `UID` and the
`MouseEvent` value type are referenced by the source but their files are
not part of the repository snapshot; they are modelled from the spec where
noted.  Mutation of canvas contexts is modelled by explicit state passing
together with an operation trace, so that ordering claims are provable.
-/

/-- A raster surface; only its dimensions are observable in this development.
(Canvas dimensions are numbers in the source; `cache` assigns the `width`
and `height` arguments to them directly.) -/
structure Canvas where
  width : Rat
  height : Rat
deriving DecidableEq

/-- The display-object state: all public and private instance properties of
`DisplayObject` (DisplayObject.js lines 50-99), with their prototype default
values.  `shadow` and `name` are opaque values, modelled as strings; `parent`
is the weak back-reference, modelled by the parent's id; `isStage` records
whether the object is a `Stage` instance (for the `instanceof` test in
`getConcatenatedMatrix`). -/
structure DNode where
  alpha : Rat := 1
  cacheCanvas : Option Canvas := none
  id : Int := -1
  mouseEnabled : Bool := true
  name : Option String := none
  parent : Option Int := none
  regX : Rat := 0
  regY : Rat := 0
  rotation : Rat := 0
  scaleX : Rat := 1
  scaleY : Rat := 1
  shadow : Option String := none
  visible : Bool := true
  x : Rat := 0
  y : Rat := 0
  cacheOffsetX : Rat := 0
  cacheOffsetY : Rat := 0
  isStage : Bool := false
deriving DecidableEq

/-- A `DisplayObject` as freshly constructed: every property at its
prototype default (the constructor only assigns `id`, handled at the
construction sites below). -/
def defaultDNode : DNode := {}

/-- Result type of the coordinate conversions (`new Point(x, y)`). -/
structure Point where
  x : Rat
  y : Rat
deriving DecidableEq

/-- Modelled from the spec: the `Matrix2D` value (its source file is not in
the repository snapshot): 6 affine coefficients `(a,b,c,d,tx,ty)` in the
layout `x' = a*x + c*y + tx`, `y' = b*x + d*y + ty`, plus the multiplicative
`alpha` accumulator and the `shadow` slot carried alongside (spec section 4.1
and section 3). -/
structure Matrix2D where
  a : Rat
  b : Rat
  c : Rat
  d : Rat
  tx : Rat
  ty : Rat
  alpha : Rat
  shadow : Option String
deriving DecidableEq

/-- Modelled from the spec: `identity()` resets to the identity transform and
clears the accumulators (alpha = 1, shadow = null). -/
def Matrix2D.identity : Matrix2D :=
  { a := 1, b := 0, c := 0, d := 1, tx := 0, ty := 0, alpha := 1, shadow := none }

/-- Modelled from the spec: `append(a,b,c,d,tx,ty)` composes the argument
transform after the current one (`result = this ∘ arg` on column vectors). -/
def Matrix2D.append (m : Matrix2D) (a2 b2 c2 d2 tx2 ty2 : Rat) : Matrix2D :=
  { a := m.a * a2 + m.c * b2
    b := m.b * a2 + m.d * b2
    c := m.a * c2 + m.c * d2
    d := m.b * c2 + m.d * d2
    tx := m.a * tx2 + m.c * ty2 + m.tx
    ty := m.b * tx2 + m.d * ty2 + m.ty
    alpha := m.alpha
    shadow := m.shadow }

/-- Modelled from the spec: `prependTransform(x, y, scaleX, scaleY,
rotationDegrees, regX, regY)` composes the local transform
`T(x,y) · R(rotation) · S(scaleX,scaleY) · T(-regX,-regY)` before the
matrix's current transform (`new = local · old`).  The accumulators are not
touched here; `getConcatenatedMatrix` updates them separately. -/
def Matrix2D.prependTransform (cosD sinD : Rat → Rat) (m : Matrix2D)
    (x y scaleX scaleY rotation regX regY : Rat) : Matrix2D :=
  let cosv := cosD rotation
  let sinv := sinD rotation
  let la := cosv * scaleX
  let lb := sinv * scaleX
  let lc := -sinv * scaleY
  let ld := cosv * scaleY
  { a := la * m.a + lc * m.b
    b := lb * m.a + ld * m.b
    c := la * m.c + lc * m.d
    d := lb * m.c + ld * m.d
    tx := la * m.tx + lc * m.ty + (x - (la * regX + lc * regY))
    ty := lb * m.tx + ld * m.ty + (y - (lb * regX + ld * regY))
    alpha := m.alpha
    shadow := m.shadow }

/-- Modelled from the spec: `invert()` computes the standard affine inverse
and fails when the determinant is zero; callers treat failure as "point
cannot be mapped" and propagate null. -/
def Matrix2D.invert (m : Matrix2D) : Option Matrix2D :=
  let det := m.a * m.d - m.b * m.c
  if det = 0 then none
  else some
    { a := m.d / det
      b := -m.b / det
      c := -m.c / det
      d := m.a / det
      tx := (m.c * m.ty - m.d * m.tx) / det
      ty := (m.b * m.tx - m.a * m.ty) / det
      alpha := m.alpha
      shadow := m.shadow }

/-- A fragment of JavaScript value semantics, enough to give the exact
meaning of the expression `!target instanceof Stage` in
`getConcatenatedMatrix` (DisplayObject.js line 246): `target` is either an
object (a display object, always truthy) or a primitive boolean. -/
inductive JsVal where
  | bool (b : Bool)
  | node (isStage : Bool)
deriving DecidableEq

/-- JavaScript truthiness for the values above: objects are truthy, booleans
are themselves. -/
def JsVal.truthy : JsVal → Bool
  | JsVal.bool b => b
  | JsVal.node _ => true

/-- The JavaScript `!` operator: boolean negation of truthiness. -/
def jsNot (v : JsVal) : JsVal := JsVal.bool (! v.truthy)

/-- The JavaScript `instanceof Stage` test: true exactly for objects that are
Stage instances; a primitive boolean is an instance of nothing. -/
def jsInstanceofStage : JsVal → Bool
  | JsVal.bool _ => false
  | JsVal.node s => s

/-- The body of the `while (true)` loop of `getConcatenatedMatrix`
(DisplayObject.js lines 239-245): prepend `target`'s local transform,
multiply the alpha accumulator, keep the first non-null shadow
(`mtx.shadow = mtx.shadow || target.shadow`), then move to the parent.
The acyclic parent chain is passed explicitly as the list of ancestors;
the loop ends when the chain is exhausted (`target.parent == null`), and
the pair returned is the final matrix together with the final `target`. -/
def concatLoop (cosD sinD : Rat → Rat) :
    Matrix2D → DNode → List DNode → Matrix2D × DNode
  | mtx, target, rest =>
    let mtx := mtx.prependTransform cosD sinD target.x target.y
      target.scaleX target.scaleY target.rotation target.regX target.regY
    let mtx := { mtx with alpha := mtx.alpha * target.alpha }
    let mtx := { mtx with shadow :=
      match mtx.shadow with
      | some s => some s
      | none => target.shadow }
    match rest with
    | [] => (mtx, target)
    | p :: rest => concatLoop cosD sinD mtx p rest

/-- `getConcatenatedMatrix` (DisplayObject.js lines 232-248) on the node `n`
whose strict ancestors, child first, are `anc`.  The matrix starts from
identity (the optional `mtx` argument is reset by `identity()` when present,
so both entry paths coincide).  The final test in the source is
`if (!target instanceof Stage) { return null; }`, which by JavaScript
precedence is `(!target) instanceof Stage`; it is embedded verbatim through
the `JsVal` fragment above. -/
def getConcatenatedMatrix (cosD sinD : Rat → Rat) (n : DNode)
    (anc : List DNode) : Option Matrix2D :=
  let r := concatLoop cosD sinD Matrix2D.identity n anc
  if jsInstanceofStage (jsNot (JsVal.node r.2.isStage)) then none
  else some r.1

/-- `localToGlobal(x, y)` (DisplayObject.js lines 187-192). -/
def localToGlobal (cosD sinD : Rat → Rat) (n : DNode) (anc : List DNode)
    (x y : Rat) : Option Point :=
  match getConcatenatedMatrix cosD sinD n anc with
  | none => none
  | some mtx =>
    let mtx := mtx.append 1 0 0 1 x y
    some { x := mtx.tx, y := mtx.ty }

/-- `globalToLocal(x, y)` (DisplayObject.js lines 202-208).  The inversion
failure channel lives in the missing `Matrix2D` source; per the spec
(sections 4.1, 4.2) a singular concatenated matrix makes the conversion
return null. -/
def globalToLocal (cosD sinD : Rat → Rat) (n : DNode) (anc : List DNode)
    (x y : Rat) : Option Point :=
  match getConcatenatedMatrix cosD sinD n anc with
  | none => none
  | some mtx =>
    match mtx.invert with
    | none => none
    | some mtx =>
      let mtx := mtx.append 1 0 0 1 x y
      some { x := mtx.tx, y := mtx.ty }

/-- `localToLocal(x, y, target)` (DisplayObject.js lines 219-223):
`var pt = this.localToGlobal(x, y); return target.globalToLocal(pt.x, pt.y);`.
The source reads `pt.x` without a null check, so a null first leg would be a
TypeError, modelled as `Except.error ()`. -/
def localToLocal (cosD sinD : Rat → Rat) (n : DNode) (nAnc : List DNode)
    (tgt : DNode) (tgtAnc : List DNode) (x y : Rat) :
    Except Unit (Option Point) :=
  match localToGlobal cosD sinD n nAnc x y with
  | none => Except.error ()
  | some pt => Except.ok (globalToLocal cosD sinD tgt tgtAnc pt.x pt.y)

/-- `isVisible()` (DisplayObject.js lines 115-117). -/
def isVisible (n : DNode) : Bool :=
  n.visible && decide (0 < n.alpha) && decide (n.scaleX ≠ 0)
    && decide (n.scaleY ≠ 0)

/-- One observable operation on a canvas 2D context.  `drawCall` records an
invocation of the polymorphic `this.draw(ctx, ignoreCache)` contract together
with the context's accumulated translation at the moment of the call (the
only context state a subclass's real draw logic could observe here). -/
inductive CtxOp where
  | translate (dx dy : Rat)
  | drawImage (img : Canvas) (x y : Rat)
  | drawCall (ignoreCache : Bool) (tx ty : Rat)
deriving DecidableEq

/-- A canvas 2D context, modelled by its accumulated translation and the
trace of operations issued against it, oldest first. -/
structure Ctx where
  tx : Rat
  ty : Rat
  ops : List CtxOp
deriving DecidableEq

/-- `ctx.translate(dx, dy)`. -/
def Ctx.translate (ctx : Ctx) (dx dy : Rat) : Ctx :=
  { tx := ctx.tx + dx, ty := ctx.ty + dy
    ops := ctx.ops ++ [CtxOp.translate dx dy] }

/-- `ctx.drawImage(img, x, y)`. -/
def Ctx.drawImage (ctx : Ctx) (img : Canvas) (x y : Rat) : Ctx :=
  { ctx with ops := ctx.ops ++ [CtxOp.drawImage img x y] }

/-- `draw(ctx, ignoreCache)` (DisplayObject.js lines 127-133), the base
implementation: nothing and "not handled" unless a cache is active and
`ignoreCache` is false, else blit the cache between a translate and its
undo and report "handled". -/
def DisplayObject.draw (n : DNode) (ctx : Ctx) (ignoreCache : Bool) :
    Ctx × Bool :=
  if ignoreCache then (ctx, false)
  else match n.cacheCanvas with
  | none => (ctx, false)
  | some cc =>
    let ctx := ctx.translate n.cacheOffsetX n.cacheOffsetY
    let ctx := ctx.drawImage cc 0 0
    let ctx := ctx.translate (-n.cacheOffsetX) (-n.cacheOffsetY)
    (ctx, true)

/-- A call of the polymorphic `this.draw(ctx, ignoreCache)`: the invocation
is recorded on the trace (it is observable by whichever variant implements
the draw contract), then the base implementation above runs (the repository
snapshot contains only the base class). -/
def callDraw (n : DNode) (ctx : Ctx) (ignoreCache : Bool) : Ctx × Bool :=
  let ctx := { ctx with ops := ctx.ops ++ [CtxOp.drawCall ignoreCache ctx.tx ctx.ty] }
  DisplayObject.draw n ctx ignoreCache

/-- `cache(x, y, width, height)` (DisplayObject.js lines 142-157): create
the cache canvas if absent (else reuse it), set its dimensions to the given
width and height, translate its context by `(-x, -y)`, call
`this.draw(ctx, true)`, and record the offset.  Assigning a canvas's
dimensions resets its 2D context, so the context starts fresh either way. -/
def DisplayObject.cache (n : DNode) (x y width height : Rat) : DNode × Ctx :=
  let cc : Canvas := match n.cacheCanvas with
    | none => { width := 0, height := 0 }
    | some c => c
  let cc := { cc with width := width, height := height }
  let ctx : Ctx := { tx := 0, ty := 0, ops := [] }
  let ctx := ctx.translate (-x) (-y)
  let r := callDraw n ctx true
  ({ n with cacheCanvas := some cc, cacheOffsetX := x, cacheOffsetY := y },
    r.1)

/-- `true` exactly on the trace entries recording a draw-contract call. -/
def isDrawCallEv : CtxOp → Bool
  | CtxOp.drawCall _ _ _ => true
  | _ => false

/-- Modelled from the spec: the `UID` generator (its source file is not in
the repository snapshot): a process-wide counter with a single
get-and-increment accessor (spec section 9). -/
def UID.get (ctr : Int) : Int × Int := (ctr, ctr + 1)

/-- `new DisplayObject()` at UID-counter state `ctr`: prototype defaults,
then `initialize()` assigns `id = UID.get()` (DisplayObject.js lines
104-107). -/
def DisplayObject.new (ctr : Int) : DNode × Int :=
  let r := UID.get ctr
  ({ defaultDNode with id := r.1 }, r.2)

/-- `cloneProps(o)` (DisplayObject.js lines 269-282): copies exactly these
twelve properties from `this` onto `o`. -/
def cloneProps (src o : DNode) : DNode :=
  { o with
    alpha := src.alpha
    name := src.name
    regX := src.regX
    regY := src.regY
    rotation := src.rotation
    scaleX := src.scaleX
    scaleY := src.scaleY
    shadow := src.shadow
    visible := src.visible
    x := src.x
    y := src.y
    mouseEnabled := src.mouseEnabled }

/-- `clone()` (DisplayObject.js lines 253-257): construct a fresh
`DisplayObject` (threading the UID-counter state), copy the props onto it,
return it.  `cloneProps` writes only to the new object, so the receiver is
untouched (the embedding is a pure function of it). -/
def DisplayObject.clone (n : DNode) (ctr : Int) : DNode × Int :=
  let r := DisplayObject.new ctr
  (cloneProps n r.1, r.2)

/-- Modelled from the spec: the pointer-event value `{kind, x, y}` handed to
the callbacks (spec section 6; the `MouseEvent` source file is not in the
repository snapshot).  `x` and `y` come from the stage's `mouseX`/`mouseY`,
which are null before the first move. -/
structure MouseEv where
  kind : String
  x : Option Rat
  y : Option Rat
deriving DecidableEq

/-- Which callback slot an event was forwarded to: the stage's own
(root-level) handler, or the handler of the designated active target
(`_activeMouseEvent`). -/
inductive MouseTarget where
  | root
  | active
deriving DecidableEq

/-- The callback slots of the active target object: whether each handler is
set on it. -/
structure ActiveHandlers where
  onMouseMove : Bool := false
  onMouseUp : Bool := false
  onMouseDown : Bool := false
deriving DecidableEq

/-- The `Stage` state relevant to the claims (Stage.js lines 44-58):
`autoClear` (default true), the bound canvas or null, the last pointer
coordinates, whether each root-level callback is set, and the active target
with its handler slots (null when none is designated). -/
structure Stage where
  autoClear : Bool := true
  canvas : Option Canvas := none
  mouseX : Option Rat := none
  mouseY : Option Rat := none
  onMouseMove : Bool := false
  onMouseUp : Bool := false
  onMouseDown : Bool := false
  activeMouseEvent : Option ActiveHandlers := none
deriving DecidableEq

/-- `_handleMouseUp(e)` (Stage.js lines 223-227), as the sequence of
callback invocations it performs: the root handler if set, then the active
target's handler if an active target is set and has one; both receive the
same event value. -/
def handleMouseUp (s : Stage) : List (MouseTarget × MouseEv) :=
  let evt : MouseEv := { kind := "onMouseUp", x := s.mouseX, y := s.mouseY }
  (if s.onMouseUp then [(MouseTarget.root, evt)] else []) ++
  (match s.activeMouseEvent with
   | some a => if a.onMouseUp then [(MouseTarget.active, evt)] else []
   | none => [])

/-- `_handleMouseDown(e)` (Stage.js lines 229-231), as the sequence of
callback invocations it performs: only the root handler, if set. -/
def handleMouseDown (s : Stage) : List (MouseTarget × MouseEv) :=
  if s.onMouseDown then
    [(MouseTarget.root, { kind := "onMouseDown", x := s.mouseX, y := s.mouseY })]
  else []

/-- One observable step of the render entry point.  `updateContext`,
`drawSubtree` and `revertContext` stand for the calls `this.updateContext
(ctx)` (push the root's context state), `this.draw(ctx)` (the draw contract
over the subtree) and `this.revertContext()`; these are `Container` methods
whose source file is not in the repository snapshot, modelled from the spec
(section 4.5) as opaque trace events. -/
inductive StageOp where
  | clearRect (x y w h : Rat)
  | updateContext
  | drawSubtree
  | revertContext
deriving DecidableEq

/-- `Stage.clear()` (Stage.js lines 101-104): silently nothing without a
bound canvas, else a full-surface `clearRect`. -/
def Stage.clear (s : Stage) : List StageOp :=
  match s.canvas with
  | none => []
  | some c => [StageOp.clearRect 0 0 c.width c.height]

/-- `Stage.update()` (Stage.js lines 84-91): nothing without a bound canvas;
else `clear()` when `autoClear` is set, then push context, draw the subtree,
revert context. -/
def Stage.update (s : Stage) : List StageOp :=
  match s.canvas with
  | none => []
  | some _ =>
    (if s.autoClear then Stage.clear s else []) ++
      [StageOp.updateContext, StageOp.drawSubtree, StageOp.revertContext]

/-- The state of the bound canvas's 2D context used by `toImage`: the pixel
contents (abstract type `Pix`), the `globalCompositeOperation` and the
`fillStyle`. -/
structure CtxState (Pix : Type) where
  pix : Pix
  gCAO : String
  fillStyle : String

/-- The raster-backend primitives `toImage` uses, supplied by the external
2D-context collaborator (spec section 6): full-surface `fillRect` (its pixel
effect depends on the current fill style and composite operation),
full-surface `clearRect`, and `toDataURL` of the current pixels. -/
structure RasterOps (Pix : Type) where
  fillRectFull : String → String → Pix → Pix
  clearFull : Pix → Pix
  toDataURL : String → Pix → String

/-- `Stage.toImage(mimeType, backgroundColor)` (Stage.js lines 136-180) on
the bound canvas's context state (the source dereferences `this.canvas`
unconditionally, so a bound surface is a precondition).  With a background
color: snapshot the pixels (`getImageData`), save the composite operation,
set destination-over compositing and the fill style, fill the background
behind the content, export, then clear, put the snapshot back and restore
the composite operation. -/
def Stage.toImage {Pix : Type} (ops : RasterOps Pix) (st : CtxState Pix)
    (mimeType : Option String) (backgroundColor : Option String) :
    CtxState Pix × String :=
  let mt := match mimeType with
    | none => "image/png"
    | some m => m
  match backgroundColor with
  | none => (st, ops.toDataURL mt st.pix)
  | some bg =>
    let data := st.pix
    let compositeOperation := st.gCAO
    let st := { st with gCAO := "destination-over" }
    let st := { st with fillStyle := bg }
    let st := { st with pix := ops.fillRectFull st.fillStyle st.gCAO st.pix }
    let imageData := ops.toDataURL mt st.pix
    let st := { st with pix := ops.clearFull st.pix }
    let st := { st with pix := data }
    let st := { st with gCAO := compositeOperation }
    (st, imageData)

/-- The first non-null `shadow` along a node list, or none. -/
def firstShadow : List DNode → Option String
  | [] => none
  | d :: t =>
    match d.shadow with
    | some s => some s
    | none => firstShadow t

/-- First-non-null choice on option values, the meaning of
`mtx.shadow = mtx.shadow || target.shadow` on shadow slots. -/
def shadowOr (a b : Option String) : Option String :=
  match a with
  | some s => some s
  | none => b

theorem shadowOr_none_left (b : Option String) : shadowOr none b = b := rfl

theorem shadowOr_none_right (a : Option String) : shadowOr a none = a := by
  cases a <;> rfl

theorem shadowOr_assoc (a b c : Option String) :
    shadowOr (shadowOr a b) c = shadowOr a (shadowOr b c) := by
  cases a <;> rfl

theorem firstShadow_cons (d : DNode) (l : List DNode) :
    firstShadow (d :: l) = shadowOr d.shadow (firstShadow l) := by
  cases h : d.shadow <;> simp [firstShadow, shadowOr, h]

/-- Because `(!target) instanceof Stage` is false for every object `target`,
the final null-return branch of `getConcatenatedMatrix` is dead code and the
loop's matrix is always returned. -/
theorem getConcatenatedMatrix_eq_some (cosD sinD : Rat → Rat) (n : DNode)
    (anc : List DNode) :
    getConcatenatedMatrix cosD sinD n anc =
      some (concatLoop cosD sinD Matrix2D.identity n anc).1 := rfl

theorem localToGlobal_eq (cosD sinD : Rat → Rat) (n : DNode)
    (anc : List DNode) (x y : Rat) :
    localToGlobal cosD sinD n anc x y =
      some
        { x := (Matrix2D.append
            (concatLoop cosD sinD Matrix2D.identity n anc).1 1 0 0 1 x y).tx
          y := (Matrix2D.append
            (concatLoop cosD sinD Matrix2D.identity n anc).1 1 0 0 1 x y).ty } :=
  rfl

theorem localToGlobal_isSome (cosD sinD : Rat → Rat) (n : DNode)
    (anc : List DNode) (x y : Rat) :
    ∃ pt, localToGlobal cosD sinD n anc x y = some pt :=
  ⟨_, localToGlobal_eq cosD sinD n anc x y⟩

theorem concatLoop_alpha (cosD sinD : Rat → Rat) (rest : List DNode) :
    ∀ (mtx : Matrix2D) (t : DNode),
      (concatLoop cosD sinD mtx t rest).1.alpha =
        mtx.alpha * ((t :: rest).map DNode.alpha).prod := by
  induction rest with
  | nil =>
    intro mtx t
    simp [concatLoop, Matrix2D.prependTransform]
  | cons p rest ih =>
    intro mtx t
    simp only [concatLoop]
    rw [ih]
    simp [Matrix2D.prependTransform]
    ring

theorem concatLoop_shadow (cosD sinD : Rat → Rat) (rest : List DNode) :
    ∀ (mtx : Matrix2D) (t : DNode),
      (concatLoop cosD sinD mtx t rest).1.shadow =
        shadowOr mtx.shadow (firstShadow (t :: rest)) := by
  induction rest with
  | nil =>
    intro mtx t
    simp only [concatLoop]
    rw [firstShadow_cons]
    cases hm : mtx.shadow <;> cases ht : t.shadow <;>
      simp [Matrix2D.prependTransform, shadowOr, firstShadow, hm, ht]
  | cons p rest ih =>
    intro mtx t
    simp only [concatLoop]
    rw [ih]
    rw [firstShadow_cons (l := p :: rest), ← shadowOr_assoc]
    cases hm : mtx.shadow <;> cases ht : t.shadow <;>
      simp [Matrix2D.prependTransform, shadowOr, hm, ht]

/-- The cosine and sine oracle used for concrete evaluations: all the
concrete nodes below have `rotation = 0`, where cos is 1 and sin is 0. -/
def cosConst : Rat → Rat := fun _ => 1

/-- See `cosConst`. -/
def sinConst : Rat → Rat := fun _ => 0

/-- C1: evaluation of the code at the failing input.  For a detached
`DisplayObject` with every property at its default (`parent = null`, not a
`Stage`), `getConcatenatedMatrix()` does NOT return null, and
`localToGlobal(0,0)` and `globalToLocal(0,0)` return points, because
`if (!target instanceof Stage) return null` parses as
`(!target) instanceof Stage`, which is always false — contradicting the
method's own documentation ("Returns null if the target is not on stage")
and the claim. -/
theorem c1_detached_returns_values :
    getConcatenatedMatrix cosConst sinConst defaultDNode [] ≠ none ∧
    localToGlobal cosConst sinConst defaultDNode [] 0 0 = some { x := 0, y := 0 } ∧
    globalToLocal cosConst sinConst defaultDNode [] 0 0 = some { x := 0, y := 0 } := by
  refine ⟨?_, ?_, ?_⟩
  · rw [getConcatenatedMatrix_eq_some]
    exact fun h => Option.noConfusion h
  · norm_num [localToGlobal, getConcatenatedMatrix_eq_some, concatLoop,
      Matrix2D.identity, Matrix2D.prependTransform, Matrix2D.append,
      defaultDNode, cosConst, sinConst]
  · norm_num [globalToLocal, getConcatenatedMatrix_eq_some, concatLoop,
      Matrix2D.identity, Matrix2D.prependTransform, Matrix2D.append,
      Matrix2D.invert, defaultDNode, cosConst, sinConst]

/-- C2: `localToLocal(x, y, target)` never crashes and returns exactly the
composition of the two legs: `localToGlobal` on the receiver followed by
`globalToLocal` on the target node, with a null result from the second leg
propagated as a null result of the whole call.  (In this code the first leg
never fails — see C1 — which is why reading `pt.x` without a null check
never throws.) -/
theorem c2_localToLocal_composes (cosD sinD : Rat → Rat) (n : DNode)
    (nAnc : List DNode) (tgt : DNode) (tgtAnc : List DNode) (x y : Rat) :
    localToLocal cosD sinD n nAnc tgt tgtAnc x y =
      Except.ok ((localToGlobal cosD sinD n nAnc x y).bind
        fun pt => globalToLocal cosD sinD tgt tgtAnc pt.x pt.y) := by
  obtain ⟨pt, hpt⟩ := localToGlobal_isSome cosD sinD n nAnc x y
  simp [localToLocal, hpt]

/-- C8: the matrix produced by `getConcatenatedMatrix` carries an alpha
accumulator equal to the product of the alphas of the node and all its
ancestors, and a shadow slot equal to the first non-null shadow met walking
from the node toward the root (none when no shadow is set on the chain). -/
theorem c8_concat_alpha_shadow (cosD sinD : Rat → Rat) (n : DNode)
    (anc : List DNode) :
    ∃ m, getConcatenatedMatrix cosD sinD n anc = some m ∧
      m.alpha = ((n :: anc).map DNode.alpha).prod ∧
      m.shadow = firstShadow (n :: anc) := by
  refine ⟨_, getConcatenatedMatrix_eq_some cosD sinD n anc, ?_, ?_⟩
  · rw [concatLoop_alpha]
    simp [Matrix2D.identity]
  · rw [concatLoop_shadow]
    simp [Matrix2D.identity, shadowOr]

/-- A stage whose root-level press and release callbacks are both set, whose
active target has both a press and a release handler, and whose last pointer
position is (10, 20). -/
def c3Stage : Stage :=
  { onMouseDown := true
    onMouseUp := true
    mouseX := some 10
    mouseY := some 20
    activeMouseEvent := some { onMouseDown := true, onMouseUp := true } }

/-- C3, counterexample: on this stage the active target has a press handler
set, yet `_handleMouseDown` invokes only the root-level callback — unlike
`_handleMouseUp`, which invokes both.  The claim that press events are
forwarded to the active target "as for release events" is false on the
code. -/
theorem c3_mousedown_skips_active_target :
    c3Stage.activeMouseEvent =
      some { onMouseMove := false, onMouseUp := true, onMouseDown := true } ∧
    handleMouseUp c3Stage =
      [(MouseTarget.root, { kind := "onMouseUp", x := some 10, y := some 20 }),
       (MouseTarget.active, { kind := "onMouseUp", x := some 10, y := some 20 })] ∧
    handleMouseDown c3Stage =
      [(MouseTarget.root, { kind := "onMouseDown", x := some 10, y := some 20 })] :=
  ⟨rfl, rfl, rfl⟩

/-- C3, amended: on a press event the Stage constructs a pointer-event value
and invokes only the root-level press callback (when set); the active
target's press callback is never invoked.  Release events invoke both the
root-level and the active target's release callbacks, each when set. -/
theorem c3_press_forwards_root_only (s : Stage) :
    (∀ e : MouseEv, (MouseTarget.active, e) ∉ handleMouseDown s) ∧
    (s.onMouseDown = true →
      handleMouseDown s =
        [(MouseTarget.root, { kind := "onMouseDown", x := s.mouseX, y := s.mouseY })]) ∧
    (∀ a, s.activeMouseEvent = some a → s.onMouseUp = true → a.onMouseUp = true →
      handleMouseUp s =
        [(MouseTarget.root, { kind := "onMouseUp", x := s.mouseX, y := s.mouseY }),
         (MouseTarget.active, { kind := "onMouseUp", x := s.mouseX, y := s.mouseY })]) := by
  refine ⟨?_, ?_, ?_⟩
  · intro e
    cases h : s.onMouseDown <;> simp [handleMouseDown, h]
  · intro h
    simp [handleMouseDown, h]
  · intro a ha hu hau
    simp [handleMouseUp, ha, hu, hau]

/-- C3, witness for the amended theorem at a concrete stage. -/
theorem c3_press_forwards_root_only_witness :
    handleMouseUp c3Stage =
      [(MouseTarget.root, { kind := "onMouseUp", x := c3Stage.mouseX, y := c3Stage.mouseY }),
       (MouseTarget.active, { kind := "onMouseUp", x := c3Stage.mouseX, y := c3Stage.mouseY })] :=
  (c3_press_forwards_root_only c3Stage).2.2
    { onMouseMove := false, onMouseUp := true, onMouseDown := true } rfl rfl rfl

/-- C4: `draw(ctx, ignoreCache)` reports "not handled" exactly when
`ignoreCache` is set or no cache canvas exists; when a cache canvas exists
and `ignoreCache` is false it translates by the stored offset, blits the
cache at (0,0), translates back by the negated offset (leaving the context's
net translation unchanged), and reports "handled". -/
theorem c4_draw_cache_path (n : DNode) (ctx : Ctx) (ic : Bool) :
    ((DisplayObject.draw n ctx ic).2 = false ↔ ic = true ∨ n.cacheCanvas = none) ∧
    (∀ cc, n.cacheCanvas = some cc → ic = false →
      DisplayObject.draw n ctx ic =
        (((ctx.translate n.cacheOffsetX n.cacheOffsetY).drawImage cc 0 0).translate
          (-n.cacheOffsetX) (-n.cacheOffsetY), true) ∧
      (DisplayObject.draw n ctx ic).1.tx = ctx.tx ∧
      (DisplayObject.draw n ctx ic).1.ty = ctx.ty) := by
  constructor
  · cases ic <;> cases h : n.cacheCanvas <;> simp [DisplayObject.draw, h]
  · intro cc hcc hic
    subst hic
    refine ⟨by simp [DisplayObject.draw, hcc], ?_, ?_⟩ <;>
      simp [DisplayObject.draw, hcc, Ctx.translate, Ctx.drawImage]

/-- A concrete cache surface for the witnesses. -/
def canvasEx : Canvas := { width := 8, height := 9 }

/-- A node with an active cache at offset (2, 3). -/
def cachedNodeEx : DNode :=
  { cacheCanvas := some canvasEx, cacheOffsetX := 2, cacheOffsetY := 3 }

/-- An empty drawing context. -/
def ctxEx : Ctx := { tx := 0, ty := 0, ops := [] }

/-- C4, witness: the cached-draw path evaluated on a concrete node. -/
theorem c4_draw_cache_path_witness :
    DisplayObject.draw cachedNodeEx ctxEx false =
      (((ctxEx.translate cachedNodeEx.cacheOffsetX cachedNodeEx.cacheOffsetY).drawImage
        canvasEx 0 0).translate (-cachedNodeEx.cacheOffsetX) (-cachedNodeEx.cacheOffsetY),
       true) :=
  ((c4_draw_cache_path cachedNodeEx ctxEx false).2 canvasEx rfl rfl).1

/-- C5: after `cache(x, y, width, height)` the node's cache canvas exists
and is sized exactly width × height, the stored cache offset is (x, y), and
the polymorphic `draw` contract was invoked on the cache surface's context
exactly once, with `ignoreCache = true` and with the context translated by
(-x, -y). -/
theorem c5_cache_postconditions (n : DNode) (x y w h : Rat) :
    (DisplayObject.cache n x y w h).1.cacheCanvas = some { width := w, height := h } ∧
    (DisplayObject.cache n x y w h).1.cacheOffsetX = x ∧
    (DisplayObject.cache n x y w h).1.cacheOffsetY = y ∧
    (DisplayObject.cache n x y w h).2.ops.filter isDrawCallEv =
      [CtxOp.drawCall true (-x) (-y)] := by
  cases hc : n.cacheCanvas <;>
    simp [DisplayObject.cache, hc, callDraw, DisplayObject.draw, Ctx.translate,
      isDrawCallEv, List.filter]

/-- C6: `toImage` leaves the live surface's pixel contents and the context's
`globalCompositeOperation` exactly as they were, for every mime type and
both with and without a background color; the background is composited only
into the exported image. -/
theorem c6_toImage_restores_surface (Pix : Type) (ops : RasterOps Pix)
    (st : CtxState Pix) (mimeType backgroundColor : Option String) :
    (Stage.toImage ops st mimeType backgroundColor).1.pix = st.pix ∧
    (Stage.toImage ops st mimeType backgroundColor).1.gCAO = st.gCAO := by
  cases backgroundColor <;> simp [Stage.toImage]

/-- C7: the render entry point `update()` and `clear()` are silent no-ops
without a bound surface; with one, `update()` clears the full surface first
exactly when `autoClear` is set, then pushes the root's context state, draws
the subtree, and reverts the context state, in that order. -/
theorem c7_update_order (s : Stage) :
    (s.canvas = none → Stage.update s = [] ∧ Stage.clear s = []) ∧
    (∀ c, s.canvas = some c →
      Stage.update s =
        (if s.autoClear then [StageOp.clearRect 0 0 c.width c.height] else []) ++
          [StageOp.updateContext, StageOp.drawSubtree, StageOp.revertContext]) := by
  constructor
  · intro h
    simp [Stage.update, Stage.clear, h]
  · intro c h
    simp [Stage.update, Stage.clear, h]

/-- A stage bound to a 4 × 5 surface, with the default `autoClear = true`. -/
def stageEx : Stage := { canvas := some { width := 4, height := 5 } }

/-- C7, witness: the full render sequence on a concrete bound stage. -/
theorem c7_update_order_witness :
    Stage.update stageEx =
      [StageOp.clearRect 0 0 4 5, StageOp.updateContext, StageOp.drawSubtree,
       StageOp.revertContext] := by
  have h := (c7_update_order stageEx).2 { width := 4, height := 5 } rfl
  simpa [stageEx] using h

/-- C9: `isVisible()` is true exactly when `visible` holds, `alpha` is
positive, and both scale factors are nonzero; contrapositively it is false
whenever `visible` is false, `alpha <= 0`, `scaleX = 0` or `scaleY = 0`. -/
theorem c9_isVisible_iff (n : DNode) :
    isVisible n = true ↔
      n.visible = true ∧ 0 < n.alpha ∧ n.scaleX ≠ 0 ∧ n.scaleY ≠ 0 := by
  simp [isVisible, and_assoc]

/-- C9, witness: a default node is visible. -/
theorem c9_isVisible_witness : isVisible defaultDNode = true :=
  (c9_isVisible_iff defaultDNode).mpr
    ⟨rfl, by norm_num [defaultDNode], by norm_num [defaultDNode],
      by norm_num [defaultDNode]⟩

/-- C10: `clone()` returns a node agreeing with the receiver on exactly the
twelve copied properties, with `parent` and `cacheCanvas` at their null
defaults and with a freshly drawn id (the next UID), distinct from the
receiver's id whenever the receiver's id was drawn earlier from the same
generator; the receiver is untouched (the embedding is a pure function of
it, mirroring that `cloneProps` assigns only to the new object). -/
theorem c10_clone_properties (n : DNode) (ctr : Int) (h : n.id < ctr) :
    ((DisplayObject.clone n ctr).1.x = n.x ∧
     (DisplayObject.clone n ctr).1.y = n.y ∧
     (DisplayObject.clone n ctr).1.scaleX = n.scaleX ∧
     (DisplayObject.clone n ctr).1.scaleY = n.scaleY ∧
     (DisplayObject.clone n ctr).1.rotation = n.rotation ∧
     (DisplayObject.clone n ctr).1.regX = n.regX ∧
     (DisplayObject.clone n ctr).1.regY = n.regY ∧
     (DisplayObject.clone n ctr).1.alpha = n.alpha ∧
     (DisplayObject.clone n ctr).1.visible = n.visible ∧
     (DisplayObject.clone n ctr).1.shadow = n.shadow ∧
     (DisplayObject.clone n ctr).1.name = n.name ∧
     (DisplayObject.clone n ctr).1.mouseEnabled = n.mouseEnabled) ∧
    (DisplayObject.clone n ctr).1.parent = none ∧
    (DisplayObject.clone n ctr).1.cacheCanvas = none ∧
    (DisplayObject.clone n ctr).1.id = ctr ∧
    (DisplayObject.clone n ctr).1.id ≠ n.id := by
  refine ⟨⟨rfl, rfl, rfl, rfl, rfl, rfl, rfl, rfl, rfl, rfl, rfl, rfl⟩,
    rfl, rfl, rfl, ?_⟩
  have hid : (DisplayObject.clone n ctr).1.id = ctr := rfl
  rw [hid]
  exact ne_of_gt h

/-- A node whose id was drawn from the UID generator when the counter was
1. -/
def clonedSrcEx : DNode := { id := 1, x := 7 }

/-- C10, witness: cloning at counter state 2 yields the fresh id 2, distinct
from the receiver's id 1. -/
theorem c10_clone_properties_witness :
    (DisplayObject.clone clonedSrcEx 2).1.id = 2 ∧
    (DisplayObject.clone clonedSrcEx 2).1.id ≠ clonedSrcEx.id := by
  have h := c10_clone_properties clonedSrcEx 2 (by decide)
  exact ⟨h.2.2.2.1, h.2.2.2.2⟩
